import Mathlib

/-!
Shallow embedding of the Lot Workflow and Ephemeral Access Engine:
the route handlers in `server/src/routes/ephemeralQr.ts`,
`server/src/routes/lotWorkflows.ts` and the lot-status route in
`src/routes/users.ts`, together with the `authorize` middleware.
Timestamps are milliseconds since the epoch (`Date.now()`), modelled as plain `Nat`.
Nondeterministic inputs of the handlers (the clock, the generated token
value) are passed as explicit arguments.
-/

namespace FS

/-- A JS value stored in an audit/history `metadata` object: a string, a
`Date` (serialised via `toISOString()`, which is injective on instants, so we
keep the instant), a string array, or `undefined` for an absent field. -/
inductive MetaVal where
  | str (s : String)
  | time (t : Nat)
  | strList (l : List String)
  | undef
  deriving DecidableEq, Repr

/-- Reads an optional request-body string the way the handlers forward it
into metadata: absent stays `undefined`, present is the string. -/
def optMeta : Option String → MetaVal
  | none => .undef
  | some s => .str s

/-- One entry of `lot.auditTrail` (fields of the embedded audit sub-schema). -/
structure AuditEntry where
  timestamp : Nat
  actorId : String
  actorName : String
  action : String
  details : String
  metadata : List (String × MetaVal)
  deriving DecidableEq, Repr

/-- One entry of `lot.qrTokens` (the ephemeral access-token metadata). -/
structure QrToken where
  token : String
  generatedAt : Nat
  expiresAt : Nat
  generatedBy : String
  deriving DecidableEq, Repr

/-- The lot document, restricted to the fields the workflow engine reads or
writes. -/
structure Lot where
  id : String
  lotNumber : String
  vendorId : String
  status : String
  auditTrail : List AuditEntry
  qrTokens : List QrToken
  updatedAt : Nat
  deriving DecidableEq, Repr

/-- One entry of `user.history` (the mirrored user-side record). -/
structure HistoryEntry where
  timestamp : Nat
  action : String
  targetType : String
  targetId : String
  details : String
  metadata : List (String × MetaVal)
  deriving DecidableEq, Repr

/-- The user document, restricted to the fields the handlers touch. -/
structure User where
  id : String
  firstName : String
  lastName : String
  role : String
  history : List HistoryEntry
  deriving DecidableEq, Repr

/-- The authenticated requester (`req.user`), as resolved by `authenticate`. -/
structure AuthUser where
  id : String
  firstName : String
  lastName : String
  role : String
  deriving DecidableEq, Repr

/-- A `ReplacementRequest` document as built by the replacement-request
route. -/
structure ReplacementRequest where
  id : String
  lotId : String
  requestedBy : String
  requestedByRole : String
  reason : String
  description : String
  photos : List String
  priority : String
  status : String
  deriving DecidableEq, Repr

/-- Tagged failures of the handlers, one per distinct error response. -/
inductive Err where
  | NotFound
  | Forbidden
  | InvalidStatus
  | InvalidCondition
  | MissingFields
  | TokenNotFound
  | TokenExpired
  | ServerError
  deriving DecidableEq, Repr

/-- The persistent store visible to one request: the lot document named in
the URL (`Lot.findOne` result), the acting user's document, and the
replacement-request collection. -/
structure Store where
  lot : Option Lot
  user : Option User
  requests : List ReplacementRequest
  deriving DecidableEq, Repr

/-- The `authorize(...roles)` middleware test: `roles.includes(req.user.role)`. -/
def authorize (roles : List String) (u : AuthUser) : Bool :=
  roles.contains u.role

/-- JS truthiness of an optional string body field: `undefined` and the empty
string are falsy. -/
def falsyStr : Option String → Bool
  | none => true
  | some s => s == ""

/-- Template `${req.user.firstName} ${req.user.lastName}`. -/
def fullName (u : AuthUser) : String :=
  u.firstName ++ " " ++ u.lastName

/-- The closed status vocabulary checked by the status route. -/
def lotStatuses : List String :=
  ["pending", "verified", "rejected", "accepted", "held"]

/-- 24 hours in milliseconds, the default token validity window. -/
def dayMs : Nat := 24 * 60 * 60 * 1000

/-- `REQ${Date.now()}` of `generateReplacementRequestId`. -/
def generateReplacementRequestId (now : Nat) : String :=
  "REQ" ++ toString now

/-- The `status_updated` audit entry pushed by `PUT /api/lots/:id/status`,
built while `lot.status` still holds the prior status. -/
def statusAuditEntry (actor : AuthUser) (now : Nat) (prior newStatus : String)
    (notes sampleCheck : Option String) : AuditEntry :=
  { timestamp := now
    actorId := actor.id
    actorName := fullName actor
    action := "status_updated"
    details := "Status changed from " ++ prior ++ " to " ++ newStatus
    metadata := [("previousStatus", .str prior), ("newStatus", .str newStatus),
                 ("notes", optMeta notes), ("sampleCheck", optMeta sampleCheck)] }

/-- The mirrored user-history entry of the status route. It is pushed after
`lot.status = status` has executed, so its `previousStatus` field reads the
already-overwritten `lot.status`. -/
def statusHistoryEntry (now : Nat) (lotAfter : Lot) (newStatus : String)
    (notes sampleCheck : Option String) : HistoryEntry :=
  { timestamp := now
    action := "update_lot_status"
    targetType := "lot"
    targetId := lotAfter.id
    details := "Updated lot " ++ lotAfter.lotNumber ++ " status to " ++ newStatus
    metadata := [("previousStatus", .str lotAfter.status),
                 ("newStatus", .str newStatus),
                 ("notes", optMeta notes), ("sampleCheck", optMeta sampleCheck)] }

/-- The lot document as mutated in memory by a successful status update:
the `status_updated` entry pushed, then `status` and `updatedAt` set. -/
def statusLotAfter (lot : Lot) (actor : AuthUser) (now : Nat) (status : String)
    (notes sampleCheck : Option String) : Lot :=
  { lot with
    auditTrail :=
      lot.auditTrail ++ [statusAuditEntry actor now lot.status status notes sampleCheck]
    status := status
    updatedAt := now }

/-- `PUT /api/lots/:id/status` (users.ts, depot-staff only), with the
persistence steps explicit: the guard chain runs first, then the mutated lot
document is saved in one `lot.save()`, then the acting user's history is
saved in a separate `user.save()`. `failLotSave` / `failUserSave` make the
corresponding `await ...save()` throw, which the route's `catch` turns into a
500 response, leaving every save already awaited committed. -/
def updateLotStatusP (actor : AuthUser) (now : Nat) (st : Store)
    (status : String) (notes sampleCheck : Option String)
    (failLotSave failUserSave : Bool) : Except Err Lot × Store :=
  if ¬ authorize ["depot-staff"] actor then (.error .Forbidden, st)
  else if ¬ lotStatuses.contains status then (.error .InvalidStatus, st)
  else match st.lot with
  | none => (.error .NotFound, st)
  | some lot =>
    let lot' : Lot := statusLotAfter lot actor now status notes sampleCheck
    if failLotSave then (.error .ServerError, st)
    else
      let st1 : Store := { st with lot := some lot' }
      match st.user with
      | none => (.ok lot', st1)
      | some u =>
        let u' : User :=
          { u with history := u.history ++ [statusHistoryEntry now lot' status notes sampleCheck] }
        if failUserSave then (.error .ServerError, st1)
        else (.ok lot', { st1 with user := some u' })

/-- The `qr_generated` audit entry pushed by `POST /:lotId/generate-qr`:
its metadata holds the opaque token value and the expiry instant, never the
rendered QR image (which is built in memory and only returned). -/
def qrAuditEntry (actor : AuthUser) (now : Nat) (tokenValue : String)
    (expiresAt : Nat) : AuditEntry :=
  { timestamp := now
    actorId := actor.id
    actorName := fullName actor
    action := "qr_generated"
    details := "Ephemeral QR code generated for lot"
    metadata := [("qrToken", .str tokenValue), ("expiresAt", .time expiresAt)] }

/-- The mirrored user-history entry of the generate-qr route. -/
def qrHistoryEntry (now : Nat) (lot : Lot) (tokenValue : String)
    (expiresAt : Nat) : HistoryEntry :=
  { timestamp := now
    action := "generate_qr"
    targetType := "lot"
    targetId := lot.id
    details := "Generated QR code for lot " ++ lot.lotNumber
    metadata := [("qrToken", .str tokenValue), ("expiresAt", .time expiresAt)] }

/-- The token record pushed onto `lot.qrTokens`: issued now, expiring 24h
later, attributed to the issuing user. -/
def qrTokenOf (actor : AuthUser) (now : Nat) (tokenValue : String) : QrToken :=
  { token := tokenValue, generatedAt := now, expiresAt := now + dayMs
    generatedBy := actor.id }

/-- The lot document as mutated by a successful token issuance: the new
token and the `qr_generated` audit entry appended. -/
def qrLotAfter (lot : Lot) (actor : AuthUser) (now : Nat) (tokenValue : String) : Lot :=
  { lot with
    qrTokens := lot.qrTokens ++ [qrTokenOf actor now tokenValue]
    auditTrail := lot.auditTrail ++ [qrAuditEntry actor now tokenValue (now + dayMs)] }

/-- `POST /api/lots/:lotId/generate-qr` (ephemeralQr.ts, vendor only).
`tokenValue` stands for the freshly generated `uuidv4().substring(0, 8)`.
The new token is pushed onto `lot.qrTokens` with
`expiresAt = Date.now() + 24h`, the `qr_generated` audit entry is pushed,
the lot is saved, then the user history is saved separately. -/
def generateQrP (actor : AuthUser) (now : Nat) (tokenValue : String)
    (st : Store) (failLotSave failUserSave : Bool) : Except Err QrToken × Store :=
  if ¬ authorize ["vendor"] actor then (.error .Forbidden, st)
  else match st.lot with
  | none => (.error .NotFound, st)
  | some lot =>
    if lot.vendorId ≠ actor.id then (.error .Forbidden, st)
    else
      let tok : QrToken := qrTokenOf actor now tokenValue
      let lot' : Lot := qrLotAfter lot actor now tokenValue
      if failLotSave then (.error .ServerError, st)
      else
        let st1 : Store := { st with lot := some lot' }
        match st.user with
        | none => (.ok tok, st1)
        | some u =>
          let u' : User :=
            { u with history := u.history ++ [qrHistoryEntry now lot tokenValue (now + dayMs)] }
          if failUserSave then (.error .ServerError, st1)
          else (.ok tok, { st1 with user := some u' })

/-- Outcome of checking a presented token value against a lot. -/
inductive TokenCheck where
  | valid
  | tokenNotFound
  | tokenExpired
  deriving DecidableEq, Repr

/-- The token-validation logic of `GET /api/lots/:lotId?token=...`:
`lot.qrTokens.find(t => t.token === token)`, then
`new Date() > qrToken.expiresAt` rejects as expired. -/
def validateToken (lot : Lot) (v : String) (now : Nat) : TokenCheck :=
  match lot.qrTokens.find? (fun t => t.token == v) with
  | none => .tokenNotFound
  | some t => if t.expiresAt < now then .tokenExpired else .valid

/-- `GET /api/lots/:lotId` (ephemeralQr.ts). A truthy `token` query switches
authorization to token validation; otherwise a vendor may only read an owned
lot. The handler performs no write, so the persisted lot is returned
unchanged as the second component. -/
def getLot (actor : AuthUser) (now : Nat) (lot? : Option Lot)
    (token? : Option String) : Except Err Lot × Option Lot :=
  match lot? with
  | none => (.error .NotFound, lot?)
  | some lot =>
    if ¬ falsyStr token? then
      match validateToken lot (token?.getD "") now with
      | .tokenNotFound => (.error .TokenNotFound, lot?)
      | .tokenExpired => (.error .TokenExpired, lot?)
      | .valid => (.ok lot, lot?)
    else
      if actor.role == "vendor" && lot.vendorId != actor.id then
        (.error .Forbidden, lot?)
      else (.ok lot, lot?)

/-- Metadata value of `installationDate: installationDate || new Date().toISOString()`. -/
def installDateMeta (installationDate : Option String) (now : Nat) : MetaVal :=
  if falsyStr installationDate then .time now else .str (installationDate.getD "")

/-- The `installation_recorded` audit entry of `POST /:lotId/install`. -/
def installAuditEntry (actor : AuthUser) (now : Nat)
    (location sec : String) (installationDate notes : Option String) : AuditEntry :=
  { timestamp := now
    actorId := actor.id
    actorName := fullName actor
    action := "installation_recorded"
    details := "Installation recorded at " ++ location ++ ", " ++ sec
    metadata := [("location", .str location), ("section", .str sec),
                 ("installationDate", installDateMeta installationDate now),
                 ("notes", optMeta notes)] }

/-- The lot document as mutated by a successful installation record. -/
def installLotAfter (lot : Lot) (actor : AuthUser) (now : Nat)
    (location sec : String) (installationDate notes : Option String) : Lot :=
  { lot with
    auditTrail := lot.auditTrail ++ [installAuditEntry actor now location sec installationDate notes] }

/-- The mirrored user-history entry of the install route. -/
def installHistoryEntry (now : Nat) (lot : Lot) (location sec : String)
    (installationDate notes : Option String) : HistoryEntry :=
  { timestamp := now
    action := "install_lot"
    targetType := "lot"
    targetId := lot.id
    details := "Installed lot " ++ lot.lotNumber ++ " at " ++ location
    metadata := [("location", .str location), ("section", .str sec),
                 ("installationDate", installDateMeta installationDate now),
                 ("notes", optMeta notes)] }

/-- `POST /api/lots/:lotId/install` (lotWorkflows.ts, track-worker only). -/
def installP (actor : AuthUser) (now : Nat) (st : Store)
    (location sec : Option String) (installationDate notes : Option String)
    (failLotSave failUserSave : Bool) : Except Err Lot × Store :=
  if ¬ authorize ["track-worker"] actor then (.error .Forbidden, st)
  else if falsyStr location || falsyStr sec then (.error .MissingFields, st)
  else match st.lot with
  | none => (.error .NotFound, st)
  | some lot =>
    let lot' : Lot :=
      installLotAfter lot actor now (location.getD "") (sec.getD "") installationDate notes
    if failLotSave then (.error .ServerError, st)
    else
      let st1 : Store := { st with lot := some lot' }
      match st.user with
      | none => (.ok lot', st1)
      | some u =>
        let u' : User :=
          { u with history := u.history ++
            [installHistoryEntry now lot (location.getD "") (sec.getD "") installationDate notes] }
        if failUserSave then (.error .ServerError, st1)
        else (.ok lot', { st1 with user := some u' })

/-- The `inspection_recorded` audit entry of `POST /:lotId/inspection`. -/
def inspectAuditEntry (actor : AuthUser) (now : Nat) (condition : String)
    (notes : Option String) (photos : Option (List String))
    (nextInspectionDue : Option String) : AuditEntry :=
  { timestamp := now
    actorId := actor.id
    actorName := fullName actor
    action := "inspection_recorded"
    details := "Inspection completed - condition: " ++ condition
    metadata := [("condition", .str condition), ("notes", optMeta notes),
                 ("photos", .strList (photos.getD [])),
                 ("nextInspectionDue", optMeta nextInspectionDue),
                 ("inspectionDate", .time now)] }

/-- The mirrored user-history entry of the inspection route. -/
def inspectHistoryEntry (now : Nat) (lot : Lot) (condition : String)
    (notes : Option String) (photos : Option (List String))
    (nextInspectionDue : Option String) : HistoryEntry :=
  { timestamp := now
    action := "inspect_lot"
    targetType := "lot"
    targetId := lot.id
    details := "Inspected lot " ++ lot.lotNumber ++ " - condition: " ++ condition
    metadata := [("condition", .str condition), ("notes", optMeta notes),
                 ("photos", .strList (photos.getD [])),
                 ("nextInspectionDue", optMeta nextInspectionDue),
                 ("inspectionDate", .time now)] }

/-- The lot document as mutated by a successful inspection record. -/
def inspectLotAfter (lot : Lot) (actor : AuthUser) (now : Nat) (condition : String)
    (notes : Option String) (photos : Option (List String))
    (nextInspectionDue : Option String) : Lot :=
  { lot with
    auditTrail := lot.auditTrail ++
      [inspectAuditEntry actor now condition notes photos nextInspectionDue] }

/-- `POST /api/lots/:lotId/inspection` (lotWorkflows.ts, inspector only):
`condition` must be truthy and one of good/worn/replace. -/
def inspectP (actor : AuthUser) (now : Nat) (st : Store)
    (condition : Option String) (notes : Option String)
    (photos : Option (List String)) (nextInspectionDue : Option String)
    (failLotSave failUserSave : Bool) : Except Err Lot × Store :=
  if ¬ authorize ["inspector"] actor then (.error .Forbidden, st)
  else if falsyStr condition ||
      ¬ (["good", "worn", "replace"].contains (condition.getD "")) then
    (.error .InvalidCondition, st)
  else match st.lot with
  | none => (.error .NotFound, st)
  | some lot =>
    let lot' : Lot :=
      inspectLotAfter lot actor now (condition.getD "") notes photos nextInspectionDue
    if failLotSave then (.error .ServerError, st)
    else
      let st1 : Store := { st with lot := some lot' }
      match st.user with
      | none => (.ok lot', st1)
      | some u =>
        let u' : User :=
          { u with history := u.history ++
            [inspectHistoryEntry now lot (condition.getD "") notes photos nextInspectionDue] }
        if failUserSave then (.error .ServerError, st1)
        else (.ok lot', { st1 with user := some u' })

/-- The `replacement_requested` audit entry of `POST /:lotId/replacement-request`,
carrying the freshly created request's id in its metadata. -/
def replacementAuditEntry (actor : AuthUser) (now : Nat) (r : ReplacementRequest) : AuditEntry :=
  { timestamp := now
    actorId := actor.id
    actorName := fullName actor
    action := "replacement_requested"
    details := "Replacement request created - reason: " ++ r.reason
    metadata := [("requestId", .str r.id), ("reason", .str r.reason),
                 ("description", .str r.description),
                 ("priority", .str r.priority),
                 ("photos", .strList r.photos)] }

/-- The `ReplacementRequest` document built by the replacement route. -/
def newReplacementRequest (actor : AuthUser) (now : Nat) (lot : Lot)
    (reason description : Option String) (photos : Option (List String))
    (priority : Option String) : ReplacementRequest :=
  { id := generateReplacementRequestId now
    lotId := lot.id
    requestedBy := actor.id
    requestedByRole := actor.role
    reason := reason.getD ""
    description := description.getD ""
    photos := photos.getD []
    priority := priority.getD "medium"
    status := "pending" }

/-- The lot document as mutated by a successful replacement request. -/
def replacementLotAfter (lot : Lot) (actor : AuthUser) (now : Nat)
    (r : ReplacementRequest) : Lot :=
  { lot with auditTrail := lot.auditTrail ++ [replacementAuditEntry actor now r] }

/-- The mirrored user-history entry of the replacement route. -/
def replacementHistoryEntry (now : Nat) (lot : Lot) (r : ReplacementRequest) : HistoryEntry :=
  { timestamp := now
    action := "request_replacement"
    targetType := "lot"
    targetId := lot.id
    details := "Requested replacement for lot " ++ lot.lotNumber
    metadata := [("requestId", .str r.id), ("reason", .str r.reason),
                 ("description", .str r.description),
                 ("priority", .str r.priority),
                 ("photos", .strList r.photos)] }

/-- `POST /api/lots/:lotId/replacement-request` (lotWorkflows.ts,
track-worker or inspector). Persistence order as written: the new
`ReplacementRequest` document is saved first, then the lot with its new
audit entry, then the user history; a failing later save leaves the earlier
saves committed and returns a 500. -/
def requestReplacementP (actor : AuthUser) (now : Nat) (st : Store)
    (reason description : Option String) (photos : Option (List String))
    (priority : Option String)
    (failReqSave failLotSave failUserSave : Bool) :
    Except Err ReplacementRequest × Store :=
  if ¬ authorize ["track-worker", "inspector"] actor then (.error .Forbidden, st)
  else if falsyStr reason || falsyStr description then (.error .MissingFields, st)
  else match st.lot with
  | none => (.error .NotFound, st)
  | some lot =>
    let r : ReplacementRequest := newReplacementRequest actor now lot reason description photos priority
    if failReqSave then (.error .ServerError, st)
    else
      let st1 : Store := { st with requests := st.requests ++ [r] }
      let lot' : Lot := replacementLotAfter lot actor now r
      if failLotSave then (.error .ServerError, st1)
      else
        let st2 : Store := { st1 with lot := some lot' }
        match st.user with
        | none => (.ok r, st2)
        | some u =>
          let u' : User :=
            { u with history := u.history ++ [replacementHistoryEntry now lot r] }
          if failUserSave then (.error .ServerError, st2)
          else (.ok r, { st2 with user := some u' })

/-- One engine operation against the store, with the request-specific inputs
packaged; save failures off (the success path of the persistence layer). -/
inductive Op where
  | genQr (actor : AuthUser) (now : Nat) (tokenValue : String)
  | setStatus (actor : AuthUser) (now : Nat) (status : String)
      (notes sampleCheck : Option String)
  | install (actor : AuthUser) (now : Nat) (location sec : Option String)
      (installationDate notes : Option String)
  | inspect (actor : AuthUser) (now : Nat) (condition : Option String)
      (notes : Option String) (photos : Option (List String))
      (nextInspectionDue : Option String)
  | reqRepl (actor : AuthUser) (now : Nat) (reason description : Option String)
      (photos : Option (List String)) (priority : Option String)
  deriving Repr

/-- Runs one operation, keeping only its effect on the store. -/
def runOp (op : Op) (st : Store) : Store :=
  match op with
  | .genQr a now v => (generateQrP a now v st false false).2
  | .setStatus a now s nts sc => (updateLotStatusP a now st s nts sc false false).2
  | .install a now l sc d nts => (installP a now st l sc d nts false false).2
  | .inspect a now c nts ph due => (inspectP a now st c nts ph due false false).2
  | .reqRepl a now rsn dsc ph pr => (requestReplacementP a now st rsn dsc ph pr false false false).2

/-- Runs a sequence of operations left to right. -/
def runOps (ops : List Op) (st : Store) : Store :=
  ops.foldl (fun s op => runOp op s) st

/-! Concrete fixtures used by witnesses and counterexamples. -/

/-- A vendor who owns `lot0`. -/
def vActor : AuthUser := { id := "V1", firstName := "Vera", lastName := "Ng", role := "vendor" }

/-- A depot-staff actor. -/
def dActor : AuthUser := { id := "D1", firstName := "Dev", lastName := "Rao", role := "depot-staff" }

/-- An inspector. -/
def iActor : AuthUser := { id := "I1", firstName := "Ira", lastName := "Sen", role := "inspector" }

/-- A pending lot owned by vendor `V1`, with empty history. -/
def lot0 : Lot :=
  { id := "LOT001", lotNumber := "LN-1", vendorId := "V1", status := "pending",
    auditTrail := [], qrTokens := [], updatedAt := 0 }

/-- A token issued at time 0 with the default 24h window. -/
def tok0 : QrToken :=
  { token := "abc12345", generatedAt := 0, expiresAt := dayMs, generatedBy := "V1" }

/-- `lot0` carrying `tok0`. -/
def lotTok : Lot := { lot0 with qrTokens := [tok0] }

/-- The depot-staff actor's user document. -/
def user0 : User :=
  { id := "D1", firstName := "Dev", lastName := "Rao", role := "depot-staff", history := [] }

/-- The inspector's user document. -/
def userI : User :=
  { id := "I1", firstName := "Ira", lastName := "Sen", role := "inspector", history := [] }

/-- A store holding `lot0` and the depot-staff user. -/
def store0 : Store := { lot := some lot0, user := some user0, requests := [] }

/-- A store holding `lot0` and the inspector user. -/
def storeI : Store := { lot := some lot0, user := some userI, requests := [] }

/-- A store holding the token-bearing lot, with no user record. -/
def storeTok : Store := { lot := some lotTok, user := none, requests := [] }

/-! Behaviour lemmas for the status route, shared by several claims. -/

/-- A caller whose role is not depot-staff is rejected by `authorize` before
the status handler body runs, for every save-failure pattern. -/
theorem updateLotStatusP_forbidden (actor : AuthUser) (now : Nat) (st : Store)
    (status : String) (notes sampleCheck : Option String) (fl fu : Bool)
    (hrole : actor.role ≠ "depot-staff") :
    updateLotStatusP actor now st status notes sampleCheck fl fu = (.error .Forbidden, st) := by
  unfold updateLotStatusP
  rw [if_pos]
  simp [authorize, hrole]

/-- A new status outside the closed vocabulary is rejected with
`InvalidStatus`, for every save-failure pattern and store. -/
theorem updateLotStatusP_invalid (actor : AuthUser) (now : Nat) (st : Store)
    (status : String) (notes sampleCheck : Option String) (fl fu : Bool)
    (hrole : actor.role = "depot-staff") (hmem : status ∉ lotStatuses) :
    updateLotStatusP actor now st status notes sampleCheck fl fu =
      (.error .InvalidStatus, st) := by
  unfold updateLotStatusP
  rw [if_neg (by simp [authorize, hrole]), if_pos (by simpa using hmem)]

/-- Exact result of a successful status update with both saves succeeding. -/
theorem updateLotStatusP_ok (actor : AuthUser) (now : Nat) (st : Store) (lot : Lot)
    (status : String) (notes sampleCheck : Option String)
    (hrole : actor.role = "depot-staff") (hmem : status ∈ lotStatuses)
    (hlot : st.lot = some lot) :
    updateLotStatusP actor now st status notes sampleCheck false false =
      (.ok (statusLotAfter lot actor now status notes sampleCheck),
       { lot := some (statusLotAfter lot actor now status notes sampleCheck)
         user := st.user.map (fun u =>
           { u with history := u.history ++
               [statusHistoryEntry now (statusLotAfter lot actor now status notes sampleCheck)
                 status notes sampleCheck] })
         requests := st.requests }) := by
  unfold updateLotStatusP
  rw [if_neg (by simp [authorize, hrole]), if_neg (by simpa using hmem), hlot]
  cases hu : st.user <;> simp [hu]

/-! Claim theorems. -/

/-- C1 counterexample: the claim asserts validation fails with `TokenExpired`
whenever the check time is at or after the expiry instant, and that a
default-window token is valid only strictly before `issuance + 24h`. For the
token issued at 0 with expiry `dayMs`, a check exactly at `dayMs` satisfies
`t' >= expiry`, yet the code (`new Date() > qrToken.expiresAt`, strict)
reports it valid, not expired. -/
theorem c1_boundary_counterexample :
    tok0.expiresAt ≤ dayMs
    ∧ tok0.expiresAt = tok0.generatedAt + dayMs
    ∧ validateToken lotTok "abc12345" dayMs = TokenCheck.valid
    ∧ validateToken lotTok "abc12345" dayMs ≠ TokenCheck.tokenExpired := by
  refine ⟨Nat.le_refl _, rfl, ?_, ?_⟩ <;> decide

/-- C1 (amended): validation fails with `TokenNotFound` when the presented
value is absent from the lot's token set; for the token found, it fails with
`TokenExpired` exactly when `t' > expiry` (strictly after), and reports valid
exactly when `t' <= expiry`; hence a token issued with the default window is
valid exactly at the checks `t' <= issuance + 24h` (the expiry instant
included, and with no lower bound at issuance). -/
theorem c1_token_validation_amended (lot : Lot) (v : String) (now : Nat) :
    ((∀ t ∈ lot.qrTokens, t.token ≠ v) → validateToken lot v now = .tokenNotFound)
    ∧ (∀ t, lot.qrTokens.find? (fun x => x.token == v) = some t →
        ((validateToken lot v now = .tokenExpired ↔ t.expiresAt < now)
          ∧ (validateToken lot v now = .valid ↔ now ≤ t.expiresAt)
          ∧ (t.expiresAt = t.generatedAt + dayMs →
              (validateToken lot v now = .valid ↔ now ≤ t.generatedAt + dayMs)))) := by
  constructor
  · intro h
    unfold validateToken
    have hnone : lot.qrTokens.find? (fun x => x.token == v) = none := by
      apply List.find?_eq_none.mpr
      intro t ht
      simpa using h t ht
    rw [hnone]
  · intro t ht
    unfold validateToken
    rw [ht]
    dsimp only
    by_cases hc : t.expiresAt < now
    · rw [if_pos hc]
      refine ⟨⟨fun _ => hc, fun _ => rfl⟩, ⟨fun h => TokenCheck.noConfusion h, fun h => ?_⟩,
              fun he => ⟨fun h => TokenCheck.noConfusion h, fun h => ?_⟩⟩
      · exact absurd h (by omega)
      · exact absurd hc (by omega)
    · rw [if_neg hc]
      refine ⟨⟨fun h => TokenCheck.noConfusion h, fun h => absurd h hc⟩,
              ⟨fun _ => by omega, fun _ => rfl⟩,
              fun he => ⟨fun _ => by omega, fun _ => rfl⟩⟩

/-- C1 witness: the amended theorem applied to the concrete lot holding
`tok0`, at a check time inside the window. -/
theorem c1_witness :
    lotTok.qrTokens.find? (fun x => x.token == "abc12345") = some tok0
    ∧ tok0.expiresAt = tok0.generatedAt + dayMs
    ∧ (validateToken lotTok "abc12345" 5 = TokenCheck.valid ↔ 5 ≤ tok0.generatedAt + dayMs) := by
  refine ⟨by decide, rfl, ?_⟩
  exact ((c1_token_validation_amended lotTok "abc12345" 5).2 tok0 (by decide)).2.2 rfl

/-- Association lookup in a metadata object, first binding wins. -/
def metaLookup (m : List (String × MetaVal)) (k : String) : Option MetaVal :=
  (m.find? (fun p => p.1 == k)).map (fun p => p.2)

/-- C2: with a depot-staff actor and the lot present, a transition to any
member of the closed status set succeeds from any current status, sets the
lot's status, and appends exactly one audit entry tagged `status_updated`
whose metadata records the prior status under `previousStatus`, the new
status under `newStatus`, and the supplied notes and sample-check result;
a new status outside the closed set fails with `InvalidStatus` and leaves
the store untouched. -/
theorem c2_status_transition (actor : AuthUser) (now : Nat) (st : Store) (lot : Lot)
    (status : String) (notes sampleCheck : Option String)
    (hrole : actor.role = "depot-staff") (hlot : st.lot = some lot) :
    (status ∈ lotStatuses →
      ∃ lot' e,
        (updateLotStatusP actor now st status notes sampleCheck false false).1 = .ok lot'
        ∧ (updateLotStatusP actor now st status notes sampleCheck false false).2.lot = some lot'
        ∧ lot'.status = status
        ∧ lot'.auditTrail = lot.auditTrail ++ [e]
        ∧ e.action = "status_updated"
        ∧ metaLookup e.metadata "previousStatus" = some (.str lot.status)
        ∧ metaLookup e.metadata "newStatus" = some (.str status)
        ∧ metaLookup e.metadata "notes" = some (optMeta notes)
        ∧ metaLookup e.metadata "sampleCheck" = some (optMeta sampleCheck))
    ∧ (status ∉ lotStatuses →
        updateLotStatusP actor now st status notes sampleCheck false false =
          (.error .InvalidStatus, st)) := by
  constructor
  · intro hmem
    refine ⟨statusLotAfter lot actor now status notes sampleCheck,
            statusAuditEntry actor now lot.status status notes sampleCheck,
            ?_, ?_, rfl, rfl, rfl, ?_, ?_, ?_, ?_⟩
    · rw [updateLotStatusP_ok actor now st lot status notes sampleCheck hrole hmem hlot]
    · rw [updateLotStatusP_ok actor now st lot status notes sampleCheck hrole hmem hlot]
    · simp [metaLookup, statusAuditEntry]
    · simp [metaLookup, statusAuditEntry]
    · simp [metaLookup, statusAuditEntry]
    · simp [metaLookup, statusAuditEntry]
  · intro hmem
    exact updateLotStatusP_invalid actor now st status notes sampleCheck false false hrole hmem

/-- C2 witness: concrete transition of the pending `lot0` to `accepted` by
the depot-staff actor, and a rejected transition to a garbage status. -/
theorem c2_witness :
    dActor.role = "depot-staff" ∧ store0.lot = some lot0
    ∧ ("accepted" ∈ lotStatuses)
    ∧ (∃ lot' e,
        (updateLotStatusP dActor 7 store0 "accepted" (some "sample ok") none false false).1 = .ok lot'
        ∧ (updateLotStatusP dActor 7 store0 "accepted" (some "sample ok") none false false).2.lot = some lot'
        ∧ lot'.status = "accepted"
        ∧ lot'.auditTrail = lot0.auditTrail ++ [e]
        ∧ e.action = "status_updated"
        ∧ metaLookup e.metadata "previousStatus" = some (.str lot0.status)
        ∧ metaLookup e.metadata "newStatus" = some (.str "accepted")
        ∧ metaLookup e.metadata "notes" = some (optMeta (some "sample ok"))
        ∧ metaLookup e.metadata "sampleCheck" = some (optMeta none)) := by
  refine ⟨rfl, rfl, by decide, ?_⟩
  exact (c2_status_transition dActor 7 store0 lot0 "accepted" (some "sample ok") none
    rfl rfl).1 (by decide)

/-- C4: for every actor whose role differs from depot-staff, the status
route fails with `Forbidden` and returns the store unchanged, whatever the
current status, target status, and save-failure pattern. -/
theorem c4_transition_role_gate (actor : AuthUser) (now : Nat) (st : Store)
    (status : String) (notes sampleCheck : Option String) (fl fu : Bool)
    (hrole : actor.role ≠ "depot-staff") :
    updateLotStatusP actor now st status notes sampleCheck fl fu =
      (.error .Forbidden, st) :=
  updateLotStatusP_forbidden actor now st status notes sampleCheck fl fu hrole

/-- C4 witness: the vendor actor's transition attempt on the concrete store
is rejected with `Forbidden` and mutates nothing. -/
theorem c4_witness :
    vActor.role ≠ "depot-staff"
    ∧ updateLotStatusP vActor 7 store0 "accepted" none none false false =
        (.error .Forbidden, store0) := by
  refine ⟨by decide, ?_⟩
  exact c4_transition_role_gate vActor 7 store0 "accepted" none none false false (by decide)

/-- C10: in a successful status transition, the mirrored user-history entry
records the NEW status under `metadata.previousStatus` (it is built after
`lot.status` has been overwritten), while the lot's own `status_updated`
entry records the prior status; hence whenever the status actually changes
the two `previousStatus` values disagree, and in the mirror `previousStatus`
always equals `newStatus`. -/
theorem c10_mirror_previous_status (actor : AuthUser) (now : Nat) (st : Store)
    (lot : Lot) (u : User) (status : String) (notes sampleCheck : Option String)
    (hrole : actor.role = "depot-staff") (hmem : status ∈ lotStatuses)
    (hlot : st.lot = some lot) (huser : st.user = some u) :
    ∃ u' h lot' e,
      (updateLotStatusP actor now st status notes sampleCheck false false).2.user = some u'
      ∧ (updateLotStatusP actor now st status notes sampleCheck false false).2.lot = some lot'
      ∧ u'.history = u.history ++ [h]
      ∧ lot'.auditTrail = lot.auditTrail ++ [e]
      ∧ metaLookup h.metadata "previousStatus" = some (.str status)
      ∧ metaLookup h.metadata "newStatus" = some (.str status)
      ∧ metaLookup e.metadata "previousStatus" = some (.str lot.status)
      ∧ (lot.status ≠ status →
          metaLookup h.metadata "previousStatus" ≠ metaLookup e.metadata "previousStatus") := by
  refine ⟨{ u with history := u.history ++
      [statusHistoryEntry now (statusLotAfter lot actor now status notes sampleCheck)
        status notes sampleCheck] },
    statusHistoryEntry now (statusLotAfter lot actor now status notes sampleCheck)
      status notes sampleCheck,
    statusLotAfter lot actor now status notes sampleCheck,
    statusAuditEntry actor now lot.status status notes sampleCheck,
    ?_, ?_, rfl, rfl, ?_, ?_, ?_, ?_⟩
  · rw [updateLotStatusP_ok actor now st lot status notes sampleCheck hrole hmem hlot, huser]
    rfl
  · rw [updateLotStatusP_ok actor now st lot status notes sampleCheck hrole hmem hlot]
  · simp [metaLookup, statusHistoryEntry, statusLotAfter]
  · simp [metaLookup, statusHistoryEntry]
  · simp [metaLookup, statusAuditEntry]
  · intro hne
    simp only [metaLookup, statusHistoryEntry, statusAuditEntry, statusLotAfter]
    simp
    exact fun hcontra => hne hcontra.symm

/-- C10 witness: the depot-staff actor moves `lot0` from `pending` to
`accepted`; the mirror's `previousStatus` reads `accepted`, not `pending`,
and so disagrees with the lot's own audit entry. -/
theorem c10_witness :
    dActor.role = "depot-staff" ∧ ("accepted" ∈ lotStatuses)
    ∧ store0.lot = some lot0 ∧ store0.user = some user0
    ∧ (∃ u' h lot' e,
        (updateLotStatusP dActor 7 store0 "accepted" none none false false).2.user = some u'
        ∧ (updateLotStatusP dActor 7 store0 "accepted" none none false false).2.lot = some lot'
        ∧ u'.history = user0.history ++ [h]
        ∧ lot'.auditTrail = lot0.auditTrail ++ [e]
        ∧ metaLookup h.metadata "previousStatus" = some (.str "accepted")
        ∧ metaLookup h.metadata "newStatus" = some (.str "accepted")
        ∧ metaLookup e.metadata "previousStatus" = some (.str lot0.status)
        ∧ (lot0.status ≠ "accepted" →
            metaLookup h.metadata "previousStatus" ≠ metaLookup e.metadata "previousStatus")) := by
  refine ⟨rfl, by decide, rfl, rfl, ?_⟩
  exact c10_mirror_previous_status dActor 7 store0 lot0 user0 "accepted" none none
    rfl (by decide) rfl rfl

/-! Behaviour lemmas for the generate-qr route. -/

/-- A non-vendor caller is rejected by `authorize` before the issuance body
runs, for every save-failure pattern. -/
theorem generateQrP_forbidden_role (actor : AuthUser) (now : Nat) (v : String)
    (st : Store) (fl fu : Bool) (hrole : actor.role ≠ "vendor") :
    generateQrP actor now v st fl fu = (.error .Forbidden, st) := by
  unfold generateQrP
  rw [if_pos]
  simp [authorize, hrole]

/-- A vendor who does not own the lot is rejected with `Forbidden`, leaving
the store untouched, for every save-failure pattern. -/
theorem generateQrP_forbidden_owner (actor : AuthUser) (now : Nat) (v : String)
    (st : Store) (lot : Lot) (fl fu : Bool)
    (hrole : actor.role = "vendor") (hlot : st.lot = some lot)
    (hown : lot.vendorId ≠ actor.id) :
    generateQrP actor now v st fl fu = (.error .Forbidden, st) := by
  unfold generateQrP
  rw [if_neg (by simp [authorize, hrole]), hlot]
  dsimp only
  rw [if_pos hown]

/-- Exact result of a successful issuance with both saves succeeding. -/
theorem generateQrP_ok (actor : AuthUser) (now : Nat) (v : String)
    (st : Store) (lot : Lot)
    (hrole : actor.role = "vendor") (hlot : st.lot = some lot)
    (hown : lot.vendorId = actor.id) :
    generateQrP actor now v st false false =
      (.ok (qrTokenOf actor now v),
       { lot := some (qrLotAfter lot actor now v)
         user := st.user.map (fun u =>
           { u with history := u.history ++ [qrHistoryEntry now lot v (now + dayMs)] })
         requests := st.requests }) := by
  unfold generateQrP
  rw [if_neg (by simp [authorize, hrole]), hlot]
  dsimp only
  rw [if_neg (by simp [hown])]
  cases hu : st.user <;> simp [hu]

/-- C5: issuance is gated on ownership: a vendor who is not the lot's owner,
or any caller of another role, is rejected with `Forbidden` and the store —
token set and audit trail included — is returned unchanged; when the owner
issues, the token value together with its issuance and expiry instants is
appended to `lot.qrTokens`, and a `qr_generated` audit entry is appended
whose metadata is exactly the token value and the expiry instant — the
rendered artifact is not part of the persisted record. -/
theorem c5_issue_owner_gate (actor : AuthUser) (now : Nat) (v : String)
    (st : Store) (lot : Lot) :
    (actor.role ≠ "vendor" →
      ∀ fl fu, generateQrP actor now v st fl fu = (.error .Forbidden, st))
    ∧ (actor.role = "vendor" → st.lot = some lot → lot.vendorId ≠ actor.id →
      ∀ fl fu, generateQrP actor now v st fl fu = (.error .Forbidden, st))
    ∧ (actor.role = "vendor" → st.lot = some lot → lot.vendorId = actor.id →
      ∃ lot' e,
        (generateQrP actor now v st false false).2.lot = some lot'
        ∧ lot'.qrTokens = lot.qrTokens ++
            [{ token := v, generatedAt := now, expiresAt := now + dayMs,
               generatedBy := actor.id }]
        ∧ lot'.auditTrail = lot.auditTrail ++ [e]
        ∧ e.action = "qr_generated"
        ∧ e.metadata = [("qrToken", .str v), ("expiresAt", .time (now + dayMs))]) := by
  refine ⟨fun hrole fl fu => generateQrP_forbidden_role actor now v st fl fu hrole,
          fun hrole hlot hown fl fu =>
            generateQrP_forbidden_owner actor now v st lot fl fu hrole hlot hown,
          fun hrole hlot hown => ?_⟩
  refine ⟨qrLotAfter lot actor now v, qrAuditEntry actor now v (now + dayMs),
          ?_, rfl, rfl, rfl, rfl⟩
  rw [generateQrP_ok actor now v st lot hrole hlot hown]

/-- C5 witness: the owning vendor issues on the concrete store, and the
token plus the `qr_generated` entry are appended; a foreign vendor is
rejected. -/
theorem c5_witness :
    vActor.role = "vendor" ∧ store0.lot = some lot0 ∧ lot0.vendorId = vActor.id
    ∧ (∃ lot' e,
        (generateQrP vActor 50 "zz998877" store0 false false).2.lot = some lot'
        ∧ lot'.qrTokens = lot0.qrTokens ++
            [{ token := "zz998877", generatedAt := 50, expiresAt := 50 + dayMs,
               generatedBy := vActor.id }]
        ∧ lot'.auditTrail = lot0.auditTrail ++ [e]
        ∧ e.action = "qr_generated"
        ∧ e.metadata = [("qrToken", .str "zz998877"), ("expiresAt", .time (50 + dayMs))]) := by
  refine ⟨rfl, rfl, rfl, ?_⟩
  exact (c5_issue_owner_gate vActor 50 "zz998877" store0 lot0).2.2 rfl rfl rfl

/-- C6: issuing a new token never invalidates an existing one: every token
already in the lot's set is still present, unmodified, after a further
issuance, the first match for any already-present token value is unchanged,
and therefore validation of any previously issued token value yields the
same verdict (valid until its own expiry) before and after the issuance. -/
theorem c6_issue_preserves_tokens (actor : AuthUser) (now : Nat) (v : String)
    (st : Store) (lot : Lot) (old : QrToken)
    (hlot : st.lot = some lot) (hmem : old ∈ lot.qrTokens) :
    ∀ lot', (generateQrP actor now v st false false).2.lot = some lot' →
      old ∈ lot'.qrTokens
      ∧ (∀ v' t, lot.qrTokens.find? (fun x => x.token == v') = some t →
          lot'.qrTokens.find? (fun x => x.token == v') = some t)
      ∧ (∀ v' t now', lot.qrTokens.find? (fun x => x.token == v') = some t →
          validateToken lot' v' now' = validateToken lot v' now') := by
  intro lot' hres
  have hshape : lot' = lot ∨ lot' = qrLotAfter lot actor now v := by
    by_cases hrole : actor.role = "vendor"
    · by_cases hown : lot.vendorId = actor.id
      · right
        rw [generateQrP_ok actor now v st lot hrole hlot hown] at hres
        exact (Option.some.injEq _ _ ▸ hres).symm
      · left
        rw [generateQrP_forbidden_owner actor now v st lot false false hrole hlot hown] at hres
        rw [hlot] at hres
        exact (Option.some.injEq _ _ ▸ hres).symm
    · left
      rw [generateQrP_forbidden_role actor now v st false false hrole] at hres
      rw [hlot] at hres
      exact (Option.some.injEq _ _ ▸ hres).symm
  have hfind : ∀ v' t, lot.qrTokens.find? (fun x => x.token == v') = some t →
      lot'.qrTokens.find? (fun x => x.token == v') = some t := by
    intro v' t hf
    rcases hshape with h | h
    · rw [h]; exact hf
    · rw [h]
      show ((lot.qrTokens ++ [qrTokenOf actor now v]).find? (fun x => x.token == v')) = some t
      rw [List.find?_append, hf]
      rfl
  refine ⟨?_, hfind, ?_⟩
  · rcases hshape with h | h
    · rw [h]; exact hmem
    · rw [h]
      exact List.mem_append_left _ hmem
  · intro v' t now' hf
    unfold validateToken
    rw [hf, hfind v' t hf]

/-- C6 witness: after the owner issues a second token on the lot already
holding `tok0`, `tok0` is still present and still validates the same. -/
theorem c6_witness :
    storeTok.lot = some lotTok ∧ tok0 ∈ lotTok.qrTokens
    ∧ tok0 ∈ (qrLotAfter lotTok vActor 50 "zz998877").qrTokens := by
  refine ⟨rfl, by decide, ?_⟩
  exact ((c6_issue_preserves_tokens vActor 50 "zz998877" storeTok lotTok tok0 rfl (by decide))
    (qrLotAfter lotTok vActor 50 "zz998877") (by decide)).1

/-! Behaviour lemmas for the read route. -/

/-- A found, unexpired token validates. -/
theorem validateToken_eq_valid (lot : Lot) (v : String) (now : Nat) (t : QrToken)
    (hf : lot.qrTokens.find? (fun x => x.token == v) = some t)
    (h : now ≤ t.expiresAt) : validateToken lot v now = .valid := by
  unfold validateToken
  rw [hf]
  dsimp only
  rw [if_neg (by omega)]

/-- The read route never writes: its resulting lot state is its input. -/
theorem getLot_frame (actor : AuthUser) (now : Nat) (lot? : Option Lot)
    (token? : Option String) : (getLot actor now lot? token?).2 = lot? := by
  cases lot? with
  | none => rfl
  | some lot =>
    unfold getLot
    dsimp only
    split
    · split <;> rfl
    · split <;> rfl

/-- Reading with a truthy, present, unexpired token succeeds and returns the
lot. -/
theorem getLot_token_ok (actor : AuthUser) (now : Nat) (lot : Lot) (v : String)
    (t : QrToken) (hv : (v == "") = false)
    (hf : lot.qrTokens.find? (fun x => x.token == v) = some t)
    (h : now ≤ t.expiresAt) :
    getLot actor now (some lot) (some v) = (.ok lot, some lot) := by
  unfold getLot
  dsimp only
  rw [if_pos (by simp [falsyStr, hv])]
  have : validateToken lot ((some v).getD "") now = .valid :=
    validateToken_eq_valid lot v now t hf h
  rw [this]

/-- One read per element of `times`, threading the stored lot through. -/
def getLotSeq (actor : AuthUser) (token? : Option String) :
    List Nat → Option Lot → List (Except Err Lot) × Option Lot
  | [], s => ([], s)
  | tm :: tms, s =>
    let r := getLot actor tm s token?
    let rest := getLotSeq actor token? tms r.2
    (r.1 :: rest.1, rest.2)

/-- C7: token validation is read-only — the stored lot after any read equals
the stored lot before, one read with a present, unexpired token reports the
lot valid, and any number of successive validations before expiry all report
valid while leaving the stored lot untouched (no one-time-use semantics). -/
theorem c7_validation_read_only (actor : AuthUser) (now : Nat) (lot? : Option Lot)
    (token? : Option String) :
    (getLot actor now lot? token?).2 = lot?
    ∧ (∀ lot v t, lot? = some lot → token? = some v → (v == "") = false →
        lot.qrTokens.find? (fun x => x.token == v) = some t → now ≤ t.expiresAt →
        (getLot actor now lot? token?).1 = .ok lot)
    ∧ (∀ lot v t times, lot? = some lot → token? = some v → (v == "") = false →
        lot.qrTokens.find? (fun x => x.token == v) = some t →
        (∀ x ∈ times, x ≤ t.expiresAt) →
        (getLotSeq actor token? times lot?).2 = lot?
        ∧ ∀ r ∈ (getLotSeq actor token? times lot?).1, r = .ok lot) := by
  refine ⟨getLot_frame actor now lot? token?, ?_, ?_⟩
  · intro lot v t hl hv hne hf hexp
    rw [hl, hv, getLot_token_ok actor now lot v t hne hf hexp]
  · intro lot v t times hl hv hne hf hall
    subst hl hv
    induction times with
    | nil => exact ⟨rfl, by intro r hr; cases hr⟩
    | cons tm tms ih =>
      have hstep : getLot actor tm (some lot) (some v) = (.ok lot, some lot) :=
        getLot_token_ok actor tm lot v t hne hf (hall tm (List.mem_cons_self tm tms))
      have hrest := ih (fun x hx => hall x (List.mem_cons_of_mem tm hx))
      unfold getLotSeq
      rw [hstep]
      dsimp only
      refine ⟨hrest.1, ?_⟩
      intro r hr
      rcases List.mem_cons.mp hr with h | h
      · exact h
      · exact hrest.2 r h

/-- C7 witness: two successive validations of `tok0` inside its window both
report valid and leave the stored lot unchanged. -/
theorem c7_witness :
    (some lotTok = some lotTok)
    ∧ (("abc12345" == "") = false)
    ∧ lotTok.qrTokens.find? (fun x => x.token == "abc12345") = some tok0
    ∧ (∀ x ∈ [5, 10], x ≤ tok0.expiresAt)
    ∧ (getLotSeq dActor (some "abc12345") [5, 10] (some lotTok)).2 = some lotTok
    ∧ (∀ r ∈ (getLotSeq dActor (some "abc12345") [5, 10] (some lotTok)).1, r = .ok lotTok) := by
  refine ⟨rfl, by decide, by decide, by decide, ?_, ?_⟩
  · exact ((c7_validation_read_only dActor 5 (some lotTok) (some "abc12345")).2.2
      lotTok "abc12345" tok0 [5, 10] rfl rfl (by decide) (by decide) (by decide)).1
  · exact ((c7_validation_read_only dActor 5 (some lotTok) (some "abc12345")).2.2
      lotTok "abc12345" tok0 [5, 10] rfl rfl (by decide) (by decide) (by decide)).2

/-! Behaviour lemmas for the replacement-request route. -/

/-- A caller who is neither track-worker nor inspector is rejected before
the body runs, for every save-failure pattern. -/
theorem requestReplacementP_forbidden (actor : AuthUser) (now : Nat) (st : Store)
    (reason description : Option String) (photos : Option (List String))
    (priority : Option String) (f1 f2 f3 : Bool)
    (hrole : actor.role ≠ "track-worker" ∧ actor.role ≠ "inspector") :
    requestReplacementP actor now st reason description photos priority f1 f2 f3 =
      (.error .Forbidden, st) := by
  unfold requestReplacementP
  rw [if_pos]
  simp [authorize, hrole.1, hrole.2]

/-- A falsy reason or description is rejected with `MissingFields` before
anything is created, for every save-failure pattern. -/
theorem requestReplacementP_missing (actor : AuthUser) (now : Nat) (st : Store)
    (reason description : Option String) (photos : Option (List String))
    (priority : Option String) (f1 f2 f3 : Bool)
    (hrole : actor.role = "track-worker" ∨ actor.role = "inspector")
    (hmiss : falsyStr reason = true ∨ falsyStr description = true) :
    requestReplacementP actor now st reason description photos priority f1 f2 f3 =
      (.error .MissingFields, st) := by
  unfold requestReplacementP
  rw [if_neg (by rcases hrole with h | h <;> simp [authorize, h]),
      if_pos (by rcases hmiss with h | h <;> simp [h])]

/-- A missing lot document is rejected with `NotFound`. -/
theorem requestReplacementP_notfound (actor : AuthUser) (now : Nat) (st : Store)
    (reason description : Option String) (photos : Option (List String))
    (priority : Option String) (f1 f2 f3 : Bool)
    (hrole : actor.role = "track-worker" ∨ actor.role = "inspector")
    (hr : falsyStr reason = false) (hd : falsyStr description = false)
    (hlot : st.lot = none) :
    requestReplacementP actor now st reason description photos priority f1 f2 f3 =
      (.error .NotFound, st) := by
  unfold requestReplacementP
  rw [if_neg (by rcases hrole with h | h <;> simp [authorize, h]),
      if_neg (by simp [hr, hd]), hlot]

/-- Exact result of a successful replacement request with every save
succeeding. -/
theorem requestReplacementP_ok (actor : AuthUser) (now : Nat) (st : Store) (lot : Lot)
    (reason description : Option String) (photos : Option (List String))
    (priority : Option String)
    (hrole : actor.role = "track-worker" ∨ actor.role = "inspector")
    (hr : falsyStr reason = false) (hd : falsyStr description = false)
    (hlot : st.lot = some lot) :
    requestReplacementP actor now st reason description photos priority false false false =
      (.ok (newReplacementRequest actor now lot reason description photos priority),
       { lot := some (replacementLotAfter lot actor now
           (newReplacementRequest actor now lot reason description photos priority))
         user := st.user.map (fun u =>
           { u with history := u.history ++
               [replacementHistoryEntry now lot
                 (newReplacementRequest actor now lot reason description photos priority)] })
         requests := st.requests ++
           [newReplacementRequest actor now lot reason description photos priority] }) := by
  unfold requestReplacementP
  rw [if_neg (by rcases hrole with h | h <;> simp [authorize, h]),
      if_neg (by simp [hr, hd]), hlot]
  cases hu : st.user <;> simp [hu]

/-- C8: a replacement request by a track-worker or inspector fails with
`MissingFields` when reason or description is absent, creating and appending
nothing; otherwise it creates a `ReplacementRequest` with status `pending`,
correlated to the lot and recording the requester and role, and appends a
`replacement_requested` audit entry whose metadata carries the new request
identifier. -/
theorem c8_replacement_request (actor : AuthUser) (now : Nat) (st : Store) (lot : Lot)
    (reason description : Option String) (photos : Option (List String))
    (priority : Option String)
    (hrole : actor.role = "track-worker" ∨ actor.role = "inspector")
    (hlot : st.lot = some lot) :
    (falsyStr reason = true ∨ falsyStr description = true →
      ∀ f1 f2 f3, requestReplacementP actor now st reason description photos priority f1 f2 f3 =
        (.error .MissingFields, st))
    ∧ (falsyStr reason = false → falsyStr description = false →
      ∃ r e,
        (requestReplacementP actor now st reason description photos priority
          false false false).1 = .ok r
        ∧ (requestReplacementP actor now st reason description photos priority
            false false false).2.requests = st.requests ++ [r]
        ∧ r.status = "pending" ∧ r.lotId = lot.id
        ∧ r.requestedBy = actor.id ∧ r.requestedByRole = actor.role
        ∧ ∃ lot', (requestReplacementP actor now st reason description photos priority
            false false false).2.lot = some lot'
          ∧ lot'.auditTrail = lot.auditTrail ++ [e]
          ∧ e.action = "replacement_requested"
          ∧ metaLookup e.metadata "requestId" = some (.str r.id)) := by
  constructor
  · intro hmiss f1 f2 f3
    exact requestReplacementP_missing actor now st reason description photos priority
      f1 f2 f3 hrole hmiss
  · intro hr hd
    refine ⟨newReplacementRequest actor now lot reason description photos priority,
            replacementAuditEntry actor now
              (newReplacementRequest actor now lot reason description photos priority),
            ?_, ?_, rfl, rfl, rfl, rfl,
            replacementLotAfter lot actor now
              (newReplacementRequest actor now lot reason description photos priority),
            ?_, rfl, rfl, ?_⟩
    · rw [requestReplacementP_ok actor now st lot reason description photos priority
        hrole hr hd hlot]
    · rw [requestReplacementP_ok actor now st lot reason description photos priority
        hrole hr hd hlot]
    · rw [requestReplacementP_ok actor now st lot reason description photos priority
        hrole hr hd hlot]
    · simp [metaLookup, replacementAuditEntry]

/-- C8 witness: the inspector files a replacement request for `lot0` with a
reason and description; a request with status `pending` is created and the
audit entry references its id, while a call without a description is
rejected with `MissingFields`. -/
theorem c8_witness :
    (iActor.role = "track-worker" ∨ iActor.role = "inspector")
    ∧ storeI.lot = some lot0
    ∧ requestReplacementP iActor 1000 storeI (some "defective") none none none
        false false false = (.error .MissingFields, storeI)
    ∧ (∃ r e,
        (requestReplacementP iActor 1000 storeI (some "defective") (some "cracked")
          none none false false false).1 = .ok r
        ∧ (requestReplacementP iActor 1000 storeI (some "defective") (some "cracked")
            none none false false false).2.requests = storeI.requests ++ [r]
        ∧ r.status = "pending" ∧ r.lotId = lot0.id
        ∧ r.requestedBy = iActor.id ∧ r.requestedByRole = iActor.role
        ∧ ∃ lot', (requestReplacementP iActor 1000 storeI (some "defective") (some "cracked")
            none none false false false).2.lot = some lot'
          ∧ lot'.auditTrail = lot0.auditTrail ++ [e]
          ∧ e.action = "replacement_requested"
          ∧ metaLookup e.metadata "requestId" = some (.str r.id)) := by
  refine ⟨.inr rfl, rfl, ?_, ?_⟩
  · exact (c8_replacement_request iActor 1000 storeI lot0 (some "defective") none
      none none (.inr rfl) rfl).1 (.inr rfl) false false false
  · exact (c8_replacement_request iActor 1000 storeI lot0 (some "defective") (some "cracked")
      none none (.inr rfl) rfl).2 rfl rfl

/-- The persisted lot after a status-route call, for every input and
save-failure pattern, is either untouched or carries the full in-memory
mutation: the new status together with its `status_updated` entry. The two
commit in the same `lot.save()`, so one is never persisted without the
other. -/
theorem updateLotStatusP_lot_cases (actor : AuthUser) (now : Nat) (st : Store)
    (status : String) (notes sampleCheck : Option String) (fl fu : Bool) :
    (updateLotStatusP actor now st status notes sampleCheck fl fu).2.lot = st.lot
    ∨ ∃ lot, st.lot = some lot ∧
      (updateLotStatusP actor now st status notes sampleCheck fl fu).2.lot =
        some (statusLotAfter lot actor now status notes sampleCheck) := by
  unfold updateLotStatusP
  split
  · exact .inl rfl
  · split
    · exact .inl rfl
    · split
      · exact .inl rfl
      · rename_i lot heq
        dsimp only
        split
        · exact .inl rfl
        · split
          · exact .inr ⟨lot, heq, rfl⟩
          · split
            · exact .inr ⟨lot, heq, rfl⟩
            · exact .inr ⟨lot, heq, rfl⟩

/-- C3 counterexample: with the inspector's well-formed replacement request
and the lot save failing after the request save succeeded, the operation
fails (500) yet has committed the `ReplacementRequest` — while the persisted
lot still carries no `replacement_requested` audit entry. The claimed
all-or-nothing property is violated across documents. -/
theorem c3_cross_document_counterexample :
    (requestReplacementP iActor 1000 storeI (some "defective") (some "cracked")
        none none false true false).1 = .error .ServerError
    ∧ (requestReplacementP iActor 1000 storeI (some "defective") (some "cracked")
        none none false true false).2.requests ≠ storeI.requests
    ∧ (requestReplacementP iActor 1000 storeI (some "defective") (some "cracked")
        none none false true false).2.lot = some lot0
    ∧ (∀ e ∈ lot0.auditTrail, e.action ≠ "replacement_requested") := by
  refine ⟨rfl, by decide, rfl, by decide⟩

/-- C3 (amended): atomicity holds per document, not per operation. The lot
document itself is all-or-nothing — for every input and save-failure
pattern the persisted lot is either unchanged or carries the new status
together with its `status_updated` entry, so a status change is never
observable without its audit entry; and when every save succeeds the
replacement route commits both the new request and its audit entry. But
persistence across documents is sequential, so a failed later save can
leave a persisted `ReplacementRequest` without its `replacement_requested`
lot entry (see the counterexample). -/
theorem c3_per_document_atomicity (actor : AuthUser) (now : Nat) (st : Store)
    (status : String) (notes sampleCheck : Option String) (fl fu : Bool) :
    ((updateLotStatusP actor now st status notes sampleCheck fl fu).2.lot = st.lot
      ∨ ∃ lot, st.lot = some lot ∧
        (updateLotStatusP actor now st status notes sampleCheck fl fu).2.lot =
          some (statusLotAfter lot actor now status notes sampleCheck))
    ∧ (∀ reason description photos priority lot,
        (actor.role = "track-worker" ∨ actor.role = "inspector") →
        falsyStr reason = false → falsyStr description = false → st.lot = some lot →
        (requestReplacementP actor now st reason description photos priority
            false false false).2.requests = st.requests ++
          [newReplacementRequest actor now lot reason description photos priority]
        ∧ (requestReplacementP actor now st reason description photos priority
            false false false).2.lot =
          some (replacementLotAfter lot actor now
            (newReplacementRequest actor now lot reason description photos priority))) := by
  refine ⟨updateLotStatusP_lot_cases actor now st status notes sampleCheck fl fu, ?_⟩
  intro reason description photos priority lot hrole hr hd hlot
  rw [requestReplacementP_ok actor now st lot reason description photos priority hrole hr hd hlot]
  exact ⟨rfl, rfl⟩

/-- C3 witness: the amended theorem applied at the concrete store: the
depot-staff status update with a failing lot save leaves the lot unchanged,
and the inspector's fully successful replacement request commits both the
request and its audit entry. -/
theorem c3_witness :
    ((updateLotStatusP dActor 7 store0 "accepted" none none true false).2.lot = store0.lot
      ∨ ∃ lot, store0.lot = some lot ∧
        (updateLotStatusP dActor 7 store0 "accepted" none none true false).2.lot =
          some (statusLotAfter lot dActor 7 "accepted" none none))
    ∧ ((iActor.role = "track-worker" ∨ iActor.role = "inspector")
        ∧ falsyStr (some "defective") = false ∧ falsyStr (some "cracked") = false
        ∧ storeI.lot = some lot0
        ∧ (requestReplacementP iActor 1000 storeI (some "defective") (some "cracked")
            none none false false false).2.requests = storeI.requests ++
          [newReplacementRequest iActor 1000 lot0 (some "defective") (some "cracked") none none]
        ∧ (requestReplacementP iActor 1000 storeI (some "defective") (some "cracked")
            none none false false false).2.lot =
          some (replacementLotAfter lot0 iActor 1000
            (newReplacementRequest iActor 1000 lot0 (some "defective") (some "cracked") none none))) := by
  refine ⟨(c3_per_document_atomicity dActor 7 store0 "accepted" none none true false).1,
          .inr rfl, rfl, rfl, rfl, ?_, ?_⟩
  · exact ((c3_per_document_atomicity iActor 1000 storeI "accepted" none none false false).2
      (some "defective") (some "cracked") none none lot0 (.inr rfl) rfl rfl rfl).1
  · exact ((c3_per_document_atomicity iActor 1000 storeI "accepted" none none false false).2
      (some "defective") (some "cracked") none none lot0 (.inr rfl) rfl rfl rfl).2

/-! Behaviour lemmas for the install and inspection routes. -/

/-- A missing lot document fails the generate-qr route with `NotFound`. -/
theorem generateQrP_notfound (actor : AuthUser) (now : Nat) (v : String)
    (st : Store) (fl fu : Bool)
    (hrole : actor.role = "vendor") (hlot : st.lot = none) :
    generateQrP actor now v st fl fu = (.error .NotFound, st) := by
  unfold generateQrP
  rw [if_neg (by simp [authorize, hrole]), hlot]

/-- A caller who is not a track-worker is rejected by the install route. -/
theorem installP_forbidden (actor : AuthUser) (now : Nat) (st : Store)
    (location sec installationDate notes : Option String) (fl fu : Bool)
    (hrole : actor.role ≠ "track-worker") :
    installP actor now st location sec installationDate notes fl fu =
      (.error .Forbidden, st) := by
  unfold installP
  rw [if_pos]
  simp [authorize, hrole]

/-- A falsy location or section fails the install route with missing
fields. -/
theorem installP_missing (actor : AuthUser) (now : Nat) (st : Store)
    (location sec installationDate notes : Option String) (fl fu : Bool)
    (hrole : actor.role = "track-worker")
    (hmiss : falsyStr location = true ∨ falsyStr sec = true) :
    installP actor now st location sec installationDate notes fl fu =
      (.error .MissingFields, st) := by
  unfold installP
  rw [if_neg (by simp [authorize, hrole]),
      if_pos (by rcases hmiss with h | h <;> simp [h])]

/-- A missing lot document fails the install route with `NotFound`. -/
theorem installP_notfound (actor : AuthUser) (now : Nat) (st : Store)
    (location sec installationDate notes : Option String) (fl fu : Bool)
    (hrole : actor.role = "track-worker")
    (hloc : falsyStr location = false) (hsec : falsyStr sec = false)
    (hlot : st.lot = none) :
    installP actor now st location sec installationDate notes fl fu =
      (.error .NotFound, st) := by
  unfold installP
  rw [if_neg (by simp [authorize, hrole]), if_neg (by simp [hloc, hsec]), hlot]

/-- Exact result of a successful installation record with both saves
succeeding. -/
theorem installP_ok (actor : AuthUser) (now : Nat) (st : Store) (lot : Lot)
    (location sec installationDate notes : Option String)
    (hrole : actor.role = "track-worker")
    (hloc : falsyStr location = false) (hsec : falsyStr sec = false)
    (hlot : st.lot = some lot) :
    installP actor now st location sec installationDate notes false false =
      (.ok (installLotAfter lot actor now (location.getD "") (sec.getD "")
              installationDate notes),
       { lot := some (installLotAfter lot actor now (location.getD "") (sec.getD "")
           installationDate notes)
         user := st.user.map (fun u =>
           { u with history := u.history ++
               [installHistoryEntry now lot (location.getD "") (sec.getD "")
                 installationDate notes] })
         requests := st.requests }) := by
  unfold installP
  rw [if_neg (by simp [authorize, hrole]), if_neg (by simp [hloc, hsec]), hlot]
  cases hu : st.user <;> simp [hu]

/-- A caller who is not an inspector is rejected by the inspection route. -/
theorem inspectP_forbidden (actor : AuthUser) (now : Nat) (st : Store)
    (condition notes : Option String) (photos : Option (List String))
    (nextInspectionDue : Option String) (fl fu : Bool)
    (hrole : actor.role ≠ "inspector") :
    inspectP actor now st condition notes photos nextInspectionDue fl fu =
      (.error .Forbidden, st) := by
  unfold inspectP
  rw [if_pos]
  simp [authorize, hrole]

/-- A falsy or out-of-vocabulary condition fails the inspection route. -/
theorem inspectP_invalid (actor : AuthUser) (now : Nat) (st : Store)
    (condition notes : Option String) (photos : Option (List String))
    (nextInspectionDue : Option String) (fl fu : Bool)
    (hrole : actor.role = "inspector")
    (hbad : falsyStr condition = true
      ∨ ¬ (["good", "worn", "replace"].contains (condition.getD "") = true)) :
    inspectP actor now st condition notes photos nextInspectionDue fl fu =
      (.error .InvalidCondition, st) := by
  unfold inspectP
  rw [if_neg (by simp [authorize, hrole])]
  rw [if_pos]
  rcases hbad with h | h
  · simp [h]
  · simp only [Bool.or_eq_true, decide_eq_true_eq]
    exact .inr (by simpa using h)

/-- A missing lot document fails the inspection route with `NotFound`. -/
theorem inspectP_notfound (actor : AuthUser) (now : Nat) (st : Store)
    (condition notes : Option String) (photos : Option (List String))
    (nextInspectionDue : Option String) (fl fu : Bool)
    (hrole : actor.role = "inspector")
    (hcond : falsyStr condition = false)
    (hvocab : ["good", "worn", "replace"].contains (condition.getD "") = true)
    (hlot : st.lot = none) :
    inspectP actor now st condition notes photos nextInspectionDue fl fu =
      (.error .NotFound, st) := by
  have hv : condition.getD "" = "good" ∨ condition.getD "" = "worn"
      ∨ condition.getD "" = "replace" := by simpa using hvocab
  unfold inspectP
  rw [if_neg (by simp [authorize, hrole]),
      if_neg (by simp [hcond]; rcases hv with h | h | h <;> simp [h]), hlot]

/-- Exact result of a successful inspection record with both saves
succeeding. -/
theorem inspectP_ok (actor : AuthUser) (now : Nat) (st : Store) (lot : Lot)
    (condition notes : Option String) (photos : Option (List String))
    (nextInspectionDue : Option String)
    (hrole : actor.role = "inspector")
    (hcond : falsyStr condition = false)
    (hvocab : ["good", "worn", "replace"].contains (condition.getD "") = true)
    (hlot : st.lot = some lot) :
    inspectP actor now st condition notes photos nextInspectionDue false false =
      (.ok (inspectLotAfter lot actor now (condition.getD "") notes photos nextInspectionDue),
       { lot := some (inspectLotAfter lot actor now (condition.getD "") notes photos
           nextInspectionDue)
         user := st.user.map (fun u =>
           { u with history := u.history ++
               [inspectHistoryEntry now lot (condition.getD "") notes photos
                 nextInspectionDue] })
         requests := st.requests }) := by
  have hv : condition.getD "" = "good" ∨ condition.getD "" = "worn"
      ∨ condition.getD "" = "replace" := by simpa using hvocab
  unfold inspectP
  rw [if_neg (by simp [authorize, hrole]),
      if_neg (by simp [hcond]; rcases hv with h | h | h <;> simp [h]), hlot]
  cases hu : st.user <;> simp [hu]

/-! Lot-shape lemmas: each operation leaves the stored lot untouched or
appends exactly its one audit entry. -/

/-- Shape of the stored lot after a generate-qr call with saves
succeeding. -/
theorem generateQrP_lot_cases (actor : AuthUser) (now : Nat) (v : String) (st : Store) :
    (generateQrP actor now v st false false).2.lot = st.lot
    ∨ ∃ lot, st.lot = some lot ∧
      (generateQrP actor now v st false false).2.lot = some (qrLotAfter lot actor now v) := by
  by_cases hrole : actor.role = "vendor"
  · rcases hl : st.lot with _ | lot
    · rw [generateQrP_notfound actor now v st false false hrole hl]
      exact .inl hl
    · by_cases hown : lot.vendorId = actor.id
      · exact .inr ⟨lot, rfl, by rw [generateQrP_ok actor now v st lot hrole hl hown]⟩
      · rw [generateQrP_forbidden_owner actor now v st lot false false hrole hl hown]
        exact .inl hl
  · rw [generateQrP_forbidden_role actor now v st false false hrole]
    exact .inl rfl

/-- Shape of the stored lot after an install call with saves succeeding. -/
theorem installP_lot_cases (actor : AuthUser) (now : Nat) (st : Store)
    (location sec installationDate notes : Option String) :
    (installP actor now st location sec installationDate notes false false).2.lot = st.lot
    ∨ ∃ lot, st.lot = some lot ∧
      (installP actor now st location sec installationDate notes false false).2.lot =
        some (installLotAfter lot actor now (location.getD "") (sec.getD "")
          installationDate notes) := by
  by_cases hrole : actor.role = "track-worker"
  · rcases hloc : falsyStr location with _ | _
    · rcases hsec : falsyStr sec with _ | _
      · rcases hl : st.lot with _ | lot
        · rw [installP_notfound actor now st location sec installationDate notes
            false false hrole hloc hsec hl]
          exact .inl hl
        · exact .inr ⟨lot, rfl, by
            rw [installP_ok actor now st lot location sec installationDate notes
              hrole hloc hsec hl]⟩
      · rw [installP_missing actor now st location sec installationDate notes
          false false hrole (.inr hsec)]
        exact .inl rfl
    · rw [installP_missing actor now st location sec installationDate notes
        false false hrole (.inl hloc)]
      exact .inl rfl
  · rw [installP_forbidden actor now st location sec installationDate notes
      false false hrole]
    exact .inl rfl

/-- Shape of the stored lot after an inspection call with saves
succeeding. -/
theorem inspectP_lot_cases (actor : AuthUser) (now : Nat) (st : Store)
    (condition notes : Option String) (photos : Option (List String))
    (nextInspectionDue : Option String) :
    (inspectP actor now st condition notes photos nextInspectionDue false false).2.lot = st.lot
    ∨ ∃ lot, st.lot = some lot ∧
      (inspectP actor now st condition notes photos nextInspectionDue false false).2.lot =
        some (inspectLotAfter lot actor now (condition.getD "") notes photos
          nextInspectionDue) := by
  by_cases hrole : actor.role = "inspector"
  · rcases hcond : falsyStr condition with _ | _
    · rcases hvocab : ["good", "worn", "replace"].contains (condition.getD "") with _ | _
      · rw [inspectP_invalid actor now st condition notes photos nextInspectionDue
          false false hrole (.inr (by rw [hvocab]; simp))]
        exact .inl rfl
      · rcases hl : st.lot with _ | lot
        · rw [inspectP_notfound actor now st condition notes photos nextInspectionDue
            false false hrole hcond hvocab hl]
          exact .inl hl
        · exact .inr ⟨lot, rfl, by
            rw [inspectP_ok actor now st lot condition notes photos nextInspectionDue
              hrole hcond hvocab hl]⟩
    · rw [inspectP_invalid actor now st condition notes photos nextInspectionDue
        false false hrole (.inl hcond)]
      exact .inl rfl
  · rw [inspectP_forbidden actor now st condition notes photos nextInspectionDue
      false false hrole]
    exact .inl rfl

/-- Shape of the stored lot after a replacement request with saves
succeeding. -/
theorem requestReplacementP_lot_cases (actor : AuthUser) (now : Nat) (st : Store)
    (reason description : Option String) (photos : Option (List String))
    (priority : Option String) :
    (requestReplacementP actor now st reason description photos priority
        false false false).2.lot = st.lot
    ∨ ∃ lot, st.lot = some lot ∧
      (requestReplacementP actor now st reason description photos priority
          false false false).2.lot =
        some (replacementLotAfter lot actor now
          (newReplacementRequest actor now lot reason description photos priority)) := by
  by_cases hrole : actor.role = "track-worker" ∨ actor.role = "inspector"
  · rcases hr : falsyStr reason with _ | _
    · rcases hd : falsyStr description with _ | _
      · rcases hl : st.lot with _ | lot
        · rw [requestReplacementP_notfound actor now st reason description photos priority
            false false false hrole hr hd hl]
          exact .inl hl
        · exact .inr ⟨lot, rfl, by
            rw [requestReplacementP_ok actor now st lot reason description photos priority
              hrole hr hd hl]⟩
      · rw [requestReplacementP_missing actor now st reason description photos priority
          false false false hrole (.inr hd)]
        exact .inl rfl
    · rw [requestReplacementP_missing actor now st reason description photos priority
        false false false hrole (.inl hr)]
      exact .inl rfl
  · rw [requestReplacementP_forbidden actor now st reason description photos priority
      false false false (not_or.mp hrole)]
    exact .inl rfl

/-- Every single operation maps a stored lot to a stored lot whose audit
trail extends the original by a (possibly empty) suffix. -/
theorem runOp_audit_extends (op : Op) (st : Store) (lot : Lot)
    (hlot : st.lot = some lot) :
    ∃ lot' tl, (runOp op st).lot = some lot'
      ∧ lot'.auditTrail = lot.auditTrail ++ tl := by
  have hsome : ∀ (res : Option Lot) (lotAfter : Lot),
      res = some lotAfter →
      (∃ tl, lotAfter.auditTrail = lot.auditTrail ++ tl) →
      ∃ lot' tl, res = some lot' ∧ lot'.auditTrail = lot.auditTrail ++ tl :=
    fun res lotAfter h ⟨tl, htl⟩ => ⟨lotAfter, tl, h, htl⟩
  cases op with
  | genQr a now v =>
    rcases generateQrP_lot_cases a now v st with h | ⟨lot2, hl2, h⟩
    · exact ⟨lot, [], by rw [runOp]; rw [h, hlot], by simp⟩
    · rw [hlot] at hl2
      injection hl2 with hl2
      subst hl2
      exact hsome _ _ (by rw [runOp]; exact h) ⟨_, rfl⟩
  | setStatus a now s nts sc =>
    rcases updateLotStatusP_lot_cases a now st s nts sc false false with h | ⟨lot2, hl2, h⟩
    · exact ⟨lot, [], by rw [runOp]; rw [h, hlot], by simp⟩
    · rw [hlot] at hl2
      injection hl2 with hl2
      subst hl2
      exact hsome _ _ (by rw [runOp]; exact h) ⟨_, rfl⟩
  | install a now l sc d nts =>
    rcases installP_lot_cases a now st l sc d nts with h | ⟨lot2, hl2, h⟩
    · exact ⟨lot, [], by rw [runOp]; rw [h, hlot], by simp⟩
    · rw [hlot] at hl2
      injection hl2 with hl2
      subst hl2
      exact hsome _ _ (by rw [runOp]; exact h) ⟨_, rfl⟩
  | inspect a now c nts ph due =>
    rcases inspectP_lot_cases a now st c nts ph due with h | ⟨lot2, hl2, h⟩
    · exact ⟨lot, [], by rw [runOp]; rw [h, hlot], by simp⟩
    · rw [hlot] at hl2
      injection hl2 with hl2
      subst hl2
      exact hsome _ _ (by rw [runOp]; exact h) ⟨_, rfl⟩
  | reqRepl a now rsn dsc ph pr =>
    rcases requestReplacementP_lot_cases a now st rsn dsc ph pr with h | ⟨lot2, hl2, h⟩
    · exact ⟨lot, [], by rw [runOp]; rw [h, hlot], by simp⟩
    · rw [hlot] at hl2
      injection hl2 with hl2
      subst hl2
      exact hsome _ _ (by rw [runOp]; exact h) ⟨_, rfl⟩

/-- C9: the audit trail is append-only — across any sequence of engine
operations, the entries previously recorded remain a prefix of the
resulting trail in their original order; operations only insert at the
tail, never mutate, remove or reorder existing entries. -/
theorem c9_audit_trail_append_only (ops : List Op) (st : Store) (lot : Lot)
    (hlot : st.lot = some lot) :
    ∃ lot' tl, (runOps ops st).lot = some lot'
      ∧ lot'.auditTrail = lot.auditTrail ++ tl := by
  induction ops generalizing st lot with
  | nil => exact ⟨lot, [], by simpa [runOps] using hlot, by simp⟩
  | cons op ops ih =>
    obtain ⟨lot1, t1, h1, h2⟩ := runOp_audit_extends op st lot hlot
    obtain ⟨lot2, t2, h3, h4⟩ := ih (runOp op st) lot1 h1
    refine ⟨lot2, t1 ++ t2, ?_, ?_⟩
    · simpa [runOps, List.foldl_cons] using h3
    · rw [h4, h2, List.append_assoc]

/-- C9 witness: a concrete three-operation run (status update, issuance,
replacement request) on the concrete store extends `lot0.auditTrail` by a
suffix. -/
theorem c9_witness :
    store0.lot = some lot0
    ∧ ∃ lot' tl,
        (runOps [Op.setStatus dActor 7 "accepted" none none,
                 Op.genQr vActor 50 "zz998877",
                 Op.reqRepl iActor 1000 (some "worn") (some "worn out") none none]
          store0).lot = some lot'
        ∧ lot'.auditTrail = lot0.auditTrail ++ tl := by
  refine ⟨rfl, ?_⟩
  exact c9_audit_trail_append_only
    [Op.setStatus dActor 7 "accepted" none none,
     Op.genQr vActor 50 "zz998877",
     Op.reqRepl iActor 1000 (some "worn") (some "worn out") none none]
    store0 lot0 rfl

end FS
